import Mathlib

/-!
Verification of the AWS billing lambda (src/code_explorer.py).

The Python source is shallowly embedded below.  External effects are passed
in explicitly: `datetime.now()` becomes a clock oracle `Nat → Date` indexed
by the number of reads performed so far, and the remote Cost Explorer call
becomes a billing oracle indexed by call number and by the arguments the
code passes to it.  Python exceptions become `Except String`.

Cost amounts.  The program stores `round(float(amount), 2)`, a Python
float.  CPython's `round(f, 2)` rounds the exact binary value of `f` to
two decimal places with ties to even (via `_Py_dg_dtoa`) and returns the
nearest float to that two-decimal value; `json.dumps`, `repr` and
`f"{x:.2f}"` all subsequently print exactly that two-decimal value.  The
embedding therefore represents a cost by its integer number of cents,
computed below by exact integer arithmetic through the binary64
significand (`float` conversion is idealized with unbounded exponent:
billing amounts are far from overflow and underflow).

String functions are implemented structurally over `String.data` so that
all definitions evaluate by kernel reduction; they agree with the Python
string operations they model on all inputs.
-/

namespace AwsDemo

/-- A calendar date, as carried by a Python `datetime` value (time-of-day
is always midnight in this program, so it is omitted). -/
structure Date where
  year : Nat
  month : Nat
  day : Nat
deriving DecidableEq, Repr

/-- Gregorian leap-year rule used by Python `datetime`. -/
def isLeap (y : Nat) : Bool :=
  (y % 4 == 0 && y % 100 != 0) || (y % 400 == 0)

/-- Number of days in a month, as validated by the `datetime` constructor. -/
def daysInMonth (y m : Nat) : Nat :=
  if m = 2 then (if isLeap y then 29 else 28)
  else if m = 4 ∨ m = 6 ∨ m = 9 ∨ m = 11 then 30
  else 31

/-- Split a character list at every occurrence of `sep` (Python
`str.split(sep)` on a one-character separator: the empty string yields one
empty piece, adjacent separators yield empty pieces). -/
def splitChars (sep : Char) : List Char → List Char → List (List Char)
  | [], acc => [acc.reverse]
  | c :: cs, acc =>
    if c = sep then acc.reverse :: splitChars sep cs []
    else splitChars sep cs (c :: acc)

/-- Python `s.split(sep)` for a one-character separator. -/
def strSplit (s : String) (sep : Char) : List String :=
  (splitChars sep s.data []).map String.mk

/-- Python `s.startswith(p)`. -/
def strStartsWith (s p : String) : Bool := p.data.isPrefixOf s.data

/-- Python `s[n:]` (drop the first `n` characters). -/
def strDrop (s : String) (n : Nat) : String := String.mk (s.data.drop n)

/-- ASCII lower-casing of one character, as Python `str.lower` acts on the
ASCII parameter values this program receives. -/
def lowerChar (c : Char) : Char :=
  if 65 ≤ c.toNat ∧ c.toNat ≤ 90 then Char.ofNat (c.toNat + 32) else c

/-- Python `s.lower()` on ASCII strings. -/
def strToLower (s : String) : String := String.mk (s.data.map lowerChar)

/-- Every character is a digit (the character class of the `_strptime`
regular expressions; vacuously true on the empty string). -/
def allDigits (s : String) : Bool := s.data.all Char.isDigit

/-- Value of a digit string. -/
def digitsToNat (s : String) : Nat :=
  s.data.foldl (fun n c => n * 10 + (c.toNat - 48)) 0

/-- Strict lexicographic order on dates; `datetime` comparison at equal
times reduces to this. -/
def dateLtB (a b : Date) : Bool :=
  decide (a.year < b.year ∨ (a.year = b.year ∧
    (a.month < b.month ∨ (a.month = b.month ∧ a.day < b.day))))

/-- Non-strict lexicographic order on dates. -/
def dateLeB (a b : Date) : Bool :=
  decide (a.year < b.year ∨ (a.year = b.year ∧
    (a.month < b.month ∨ (a.month = b.month ∧ a.day ≤ b.day))))

/-- Start codepoints of the Unicode category Nd blocks: every decimal
digit lies in exactly one block of ten consecutive codepoints whose
digit values are the offsets 0..9 (generated from the `unicodedata` of
CPython 3.11, Unicode 14.0, and verified there: the blocks cover Nd
exactly and `int()` reads each character as its offset).  The `\d` class
of the `_strptime` regular expressions matches exactly these
characters. -/
def ndBlockStarts : List Nat :=
  [48, 1632, 1776, 1984, 2406, 2534, 2662, 2790, 2918, 3046, 3174, 3302,
   3430, 3558, 3664, 3792, 3872, 4160, 4240, 6112, 6160, 6470, 6608, 6784,
   6800, 6992, 7088, 7232, 7248, 42528, 43216, 43264, 43472, 43504, 43600,
   44016, 65296, 66720, 68912, 69734, 69872, 69942, 70096, 70384, 70736,
   70864, 71248, 71360, 71472, 71904, 72016, 72784, 73040, 73120, 92768,
   92864, 93008, 120782, 120792, 120802, 120812, 120822, 123200, 123632,
   125264, 130032]

/-- The decimal value of a Unicode decimal digit (category Nd), `none`
for every other character: what `\d` matches and `int()` then reads. -/
def uniDigitVal? (c : Char) : Option Nat :=
  (ndBlockStarts.find? (fun s => decide (s ≤ c.toNat) && decide (c.toNat < s + 10))).map
    (fun s => c.toNat - s)

/-- The `%Y` field: `\d\d\d\d`, exactly four Unicode decimal digits,
converted positionally by `int()`. -/
def yearMatch : List Char → Option Nat
  | [c1, c2, c3, c4] =>
    match uniDigitVal? c1, uniDigitVal? c2, uniDigitVal? c3, uniDigitVal? c4 with
    | some v1, some v2, some v3, some v4 =>
      some (v1 * 1000 + v2 * 100 + v3 * 10 + v4)
    | _, _, _, _ => none
  | _ => none

/-- The `%m` field: `1[0-2]|0[1-9]|[1-9]` (ASCII only), consuming the
whole field — a shorter alternative would leave unconverted data, which
`strptime` also rejects. -/
def monthMatch : List Char → Option Nat
  | [c] => if '1' ≤ c ∧ c ≤ '9' then some (c.toNat - 48) else none
  | [c1, c2] =>
    if c1 = '1' ∧ '0' ≤ c2 ∧ c2 ≤ '2' then some (10 + (c2.toNat - 48))
    else if c1 = '0' ∧ '1' ≤ c2 ∧ c2 ≤ '9' then some (c2.toNat - 48)
    else none
  | _ => none

/-- The `%d` field: `3[0-1]|[1-2]\d|0[1-9]|[1-9]| [1-9]` — note the
space-padded-day alternative, and that the second character after 1 or 2
may be any Unicode decimal digit — again consuming the whole field;
`int()` strips the padding space. -/
def dayMatch : List Char → Option Nat
  | [c] => if '1' ≤ c ∧ c ≤ '9' then some (c.toNat - 48) else none
  | [c1, c2] =>
    if c1 = '3' ∧ '0' ≤ c2 ∧ c2 ≤ '1' then some (30 + (c2.toNat - 48))
    else if '1' ≤ c1 ∧ c1 ≤ '2' then
      (uniDigitVal? c2).map (fun v => 10 * (c1.toNat - 48) + v)
    else if c1 = '0' ∧ '1' ≤ c2 ∧ c2 ≤ '9' then some (c2.toNat - 48)
    else if c1 = ' ' ∧ '1' ≤ c2 ∧ c2 ≤ '9' then some (c2.toNat - 48)
    else none
  | _ => none

/-- Python `datetime.strptime(s, "%Y-%m-%d")`.  `_strptime` compiles the
format to `(?P<Y>\d\d\d\d)-(?P<m>1[0-2]|0[1-9]|[1-9])-(?P<d>3[0-1]|`
`[1-2]\d|0[1-9]|[1-9]| [1-9])`, matched from the start with no data left
over; the year, month and day fields cannot contain a dash, so the match
is the dash-split of the string with each piece consumed entirely by its
field (a piece only partly matched leaves unconverted data, also an
error).  The `datetime` constructor then rejects year 0 and a day beyond
the month length, in that order.  The single mismatch message stands for
the two CPython regex-failure texts (`time data ... does not match
format` and `unconverted data remains`); the program never inspects the
message, it only embeds it in an `Invalid date:` body. -/
def strptime (s : String) : Except String Date :=
  let bad : Except String Date :=
    Except.error ("time data " ++ s ++ " does not match format %Y-%m-%d")
  match strSplit s '-' with
  | [ys, ms, ds] =>
    match yearMatch ys.data, monthMatch ms.data, dayMatch ds.data with
    | some y, some m, some d =>
      if y = 0 then Except.error "year 0 is out of range"
      else if daysInMonth y m < d then Except.error "day is out of range for month"
      else Except.ok ⟨y, m, d⟩
    | _, _, _ => bad
  | _ => bad

/-- Zero-pad a number below 100 to two digits, as `%m`/`%d` in `strftime`. -/
def pad2 (n : Nat) : String := if n < 10 then "0" ++ toString n else toString n

/-- Zero-pad to four digits, as `%Y` in `strftime` for the years this
program can meet. -/
def pad4 (n : Nat) : String :=
  if n < 10 then "000" ++ toString n
  else if n < 100 then "00" ++ toString n
  else if n < 1000 then "0" ++ toString n
  else toString n

/-- Python `d.strftime("%Y-%m-%d")`. -/
def formatDate (d : Date) : String :=
  pad4 d.year ++ "-" ++ pad2 d.month ++ "-" ++ pad2 d.day

/-- Python `now.replace(day=1)`: first day of the current month. -/
def firstOfMonth (d : Date) : Date := ⟨d.year, d.month, 1⟩

/-- Python `now - timedelta(days=1)`: the previous calendar day, with
month and year borrow. -/
def Date.pred (d : Date) : Date :=
  if 1 < d.day then ⟨d.year, d.month, d.day - 1⟩
  else if 1 < d.month then ⟨d.year, d.month - 1, daysInMonth d.year (d.month - 1)⟩
  else ⟨d.year - 1, 12, 31⟩

/-- Round `a / b` (for `b > 0`) to the nearest natural, ties to even. -/
def rheNat (a b : Nat) : Nat :=
  let q := a / b
  let r := a % b
  if 2 * r < b then q
  else if b < 2 * r then q + 1
  else if q % 2 = 0 then q else q + 1

/-- Fuel-driven floor of `log2` (the fuel `n` itself always suffices). -/
def log2Fuel : Nat → Nat → Nat
  | 0, _ => 0
  | f + 1, n => if n < 2 then 0 else 1 + log2Fuel f (n / 2)

/-- Floor of the base-2 logarithm (0 at 0), by structural recursion so it
evaluates in the kernel. -/
def natLog2 (n : Nat) : Nat := log2Fuel n n

/-- For `n ≥ 1`, the exponent `e` with `n / 10^k ∈ [2^(e-1), 2^e)`.
`natLog2` of numerator and denominator pins it down to two candidates,
decided by one exact comparison. -/
def decExp (n k : Nat) : ℤ :=
  let c : ℤ := (natLog2 n : ℤ) - (natLog2 (10 ^ k) : ℤ)
  let geC : Bool :=
    if 0 ≤ c then decide (2 ^ c.toNat * 10 ^ k ≤ n)
    else decide (10 ^ k ≤ n * 2 ^ (-c).toNat)
  if geC then c + 1 else c

/-- The 53-bit significand of the binary64 value nearest to `n / 10^k`
(round to nearest, ties to even): `(n / 10^k) · 2^(53-e)` rounded
half-even. -/
def mantissa53 (n k : Nat) : Nat :=
  let s : ℤ := 53 - decExp n k
  if 0 ≤ s then rheNat (n * 2 ^ s.toNat) (10 ^ k)
  else rheNat n (10 ^ k * 2 ^ (-s).toNat)

/-- Cents of Python `round(float(s), 2)` for a non-negative decimal
`n / 10^k`: the stored float is `mantissa53 · 2^(e-53)`; CPython rounds
its exact value to two decimal places, ties to even. -/
def pyRound2CentsNat (n k : Nat) : Nat :=
  if n = 0 then 0
  else
    let e := decExp n k
    let m := mantissa53 n k
    if 53 ≤ e then m * 100 * 2 ^ (e - 53).toNat
    else rheNat (m * 100) (2 ^ (53 - e).toNat)

/-- Cents of Python `round(float(s), 2)` for a signed decimal
`± n / 10^k` (both the float conversion and the tie-to-even decimal
rounding are symmetric in sign). -/
def pyRound2Cents (neg : Bool) (n k : Nat) : ℤ :=
  if neg then -(pyRound2CentsNat n k : ℤ) else (pyRound2CentsNat n k : ℤ)

/-- Python `float(s)` for the plain decimal strings the billing API
returns: optional minus sign, digits, optional point and fraction digits
(`"12."` and `".5"` are accepted, `"."` and `""` are not).  The result is
the sign and the exact decimal as `mantissa / 10^scale`.  Scientific
notation and the other exotic forms `float` accepts never occur in
amounts. -/
def parseDecimal (s : String) : Option (Bool × Nat × Nat) :=
  let signed := strStartsWith s "-"
  let t := if signed then strDrop s 1 else s
  match strSplit t '.' with
  | [w] =>
    if (w.length != 0) && allDigits w then some (signed, digitsToNat w, 0) else none
  | [w, f] =>
    if (w.length + f.length != 0) && allDigits w && allDigits f then
      some (signed, digitsToNat w * 10 ^ f.length + digitsToNat f, f.length)
    else none
  | _ => none

/-- The Cost Explorer filter structure built by `build_filters`: a leaf
`Dimensions` or `Tags` predicate, or an `And` of several. -/
inductive FilterExpr where
  | dimensions (key : String) (values : List String)
  | tags (key : String) (values : List String)
  | and (children : List FilterExpr)
deriving Repr

/-- Query-string parameters: an insertion-ordered mapping with distinct
keys, as `event["queryStringParameters"]` provides. -/
abbrev Params := List (String × String)

/-- Python `params.get(k)` / `params[k]`. -/
def getParam (params : Params) (k : String) : Option String :=
  (params.find? (fun p => p.1 == k)).map (fun p => p.2)

/-- Python `value.split(",")`. -/
def splitComma (s : String) : List String := strSplit s ','

/-- The tag-filter scan of `build_filters`: every key with a `tag_`
prefix, in the key order of the mapping, yields a `Tags` predicate on the
prefix-stripped name and the comma-split value. -/
def tagFilters (params : Params) : List FilterExpr :=
  params.filterMap (fun p =>
    if strStartsWith p.1 "tag_" then
      some (FilterExpr.tags (strDrop p.1 4) (splitComma p.2))
    else none)

/-- `build_filters` (src/code_explorer.py lines 45-84): append a SERVICE
predicate if `services` is present, a REGION predicate if `regions` is
present, then one Tags predicate per `tag_` key; return `none`, the
single predicate, or an `And` node according to how many were
collected. -/
def build_filters (params : Params) : Option FilterExpr :=
  let filters : List FilterExpr := []
  let filters := match getParam params "services" with
    | some v => filters ++ [FilterExpr.dimensions "SERVICE" (splitComma v)]
    | none => filters
  let filters := match getParam params "regions" with
    | some v => filters ++ [FilterExpr.dimensions "REGION" (splitComma v)]
    | none => filters
  let filters := filters ++ tagFilters params
  match filters with
  | [] => none
  | [f] => some f
  | fs => some (FilterExpr.and fs)

/-- The predicate list as the spec words it: the services predicate, then
the regions predicate, then the tag predicates in the key order of the
mapping, each value split on commas.  Stated independently of
`build_filters` so the two can be compared. -/
def specPredicates (params : Params) : List FilterExpr :=
  (match getParam params "services" with
   | some v => [FilterExpr.dimensions "SERVICE" (splitComma v)]
   | none => []) ++
  (match getParam params "regions" with
   | some v => [FilterExpr.dimensions "REGION" (splitComma v)]
   | none => []) ++
  tagFilters params

/-- One group of a Cost Explorer result bucket: the `Keys` list and the
`Metrics.UnblendedCost.Amount` string. -/
structure Group where
  Keys : List String
  Amount : String
deriving DecidableEq, Repr

/-- One `ResultsByTime` bucket (only its `Groups` are read). -/
structure ResultByTime where
  Groups : List Group
deriving DecidableEq, Repr

/-- The raw Cost Explorer response (only `ResultsByTime` is read). -/
structure CEResponse where
  ResultsByTime : List ResultByTime
deriving DecidableEq, Repr

/-- One normalized billing record, the dict
`{"Service": ..., "Cost (USD)": ...}`.  The stored float value is exactly
`costCents / 100` (see the file comment on cost amounts). -/
structure Record where
  Service : String
  costCents : ℤ
deriving DecidableEq, Repr

/-- `get_aws_billing_data` (lines 5-22): issues one `get_cost_and_usage`
call; the call outcome is passed in as `call` (`Except.ok` with the raw
response — `none` models a falsy response — or `Except.error` with
`str(e)`).  Any error is re-raised as
`RuntimeError("Cost Explorer Error: " + str(e))`. -/
def get_aws_billing_data (call : Except String (Option CEResponse)) :
    Except String (Option CEResponse) :=
  match call with
  | Except.ok r => Except.ok r
  | Except.error e => Except.error ("Cost Explorer Error: " ++ e)

/-- The body of the normalization loop (lines 120-123): take the first
key as the service name, parse the amount with `float` and round to two
places.  A missing key raises `IndexError`, an unparsable amount raises
`ValueError`; both surface as the top-level 500. -/
def normalizeGroup (g : Group) : Except String Record :=
  match g.Keys.head? with
  | none => Except.error "list index out of range"
  | some service =>
    match parseDecimal g.Amount with
    | none => Except.error ("could not convert string to float: " ++ g.Amount)
    | some d => Except.ok { Service := service, costCents := pyRound2Cents d.1 d.2.1 d.2.2 }

/-- Run `normalizeGroup` over a list, stopping at the first raised error,
as the Python loop does. -/
def normalizeGroups : List Group → Except String (List Record)
  | [] => Except.ok []
  | g :: gs =>
    match normalizeGroup g with
    | Except.error e => Except.error e
    | Except.ok r =>
      match normalizeGroups gs with
      | Except.error e => Except.error e
      | Except.ok rs => Except.ok (r :: rs)

/-- The normalization of lines 117-123: nothing when the response is
falsy, otherwise every group of every bucket in order, flattened. -/
def normalizeResponse (resp : Option CEResponse) : Except String (List Record) :=
  match resp with
  | none => Except.ok []
  | some r => normalizeGroups ((r.ResultsByTime.map (fun rbt => rbt.Groups)).flatten)

/-- Python `f"{v:.2f}"` for the two-decimal cost floats this program
stores: the format re-rounds the float to two decimals, which is the
identity on them, so it prints the cents. -/
def format2f (cents : ℤ) : String :=
  let sign := if cents < 0 then "-" else ""
  let a := cents.natAbs
  sign ++ toString (a / 100) ++ "." ++ pad2 (a % 100)

/-- `s.ljust(w)`: pad with spaces on the right, never truncate. -/
def padRight (s : String) (w : Nat) : String :=
  s ++ String.mk (List.replicate (w - s.length) ' ')

/-- `s.rjust(w)`: pad with spaces on the left, never truncate. -/
def padLeft (s : String) (w : Nat) : String :=
  String.mk (List.replicate (w - s.length) ' ') ++ s

/-- Line 29: `max(len(item["Service"]) for item in data)` (the header is
not part of this maximum). -/
def service_width (data : List Record) : Nat :=
  (data.map (fun r => r.Service.length)).foldl max 0

/-- Line 30: `max(len(f"{item[...]:.2f}") for item in data)` (again
without the header). -/
def cost_width (data : List Record) : Nat :=
  (data.map (fun r => (format2f r.costCents).length)).foldl max 0

/-- Insert a record into a cost-descending list, after every element of
greater or equal cost.  This is where a stable descending sort places the
earliest-input element. -/
def insertCostDesc (r : Record) : List Record → List Record
  | [] => [r]
  | x :: xs =>
    if x.costCents ≤ r.costCents then r :: x :: xs
    else x :: insertCostDesc r xs

/-- `sorted(data, key=lambda x: x["Cost (USD)"], reverse=True)`: Python
`sorted` is specified as a stable sort, and with `reverse=True` elements
of equal key keep their input order.  Stable insertion sort is the unique
function with that behaviour, stated structurally so it evaluates. -/
def sortByCostDesc : List Record → List Record
  | [] => []
  | r :: rs => insertCostDesc r (sortByCostDesc rs)

/-- A data row of the table (lines 38-40). -/
def renderRow (sw cw : Nat) (r : Record) : String :=
  "| " ++ padRight r.Service sw ++ " | " ++ padLeft (format2f r.costCents) cw ++ " |"

/-- `"-" * n`. -/
def dashes (n : Nat) : String := String.mk (List.replicate n '-')

/-- `format_table` (lines 25-42). -/
def format_table (data : List Record) : String :=
  if data.isEmpty then "No billing data available"
  else
    let sw := service_width data
    let cw := cost_width data
    let header := "| " ++ padRight "Service" sw ++ " | " ++ padLeft "Cost (USD)" cw ++ " |"
    let sep := "|" ++ dashes (sw + 2) ++ "|" ++ dashes (cw + 2) ++ "|"
    String.intercalate "\n" (header :: sep :: (sortByCostDesc data).map (renderRow sw cw))

/-- `repr` / `json.dumps` rendering of a two-decimal cost float: the
shortest decimal denoting it, with a trailing `.0` kept on integral
values, as Python float repr does. -/
def jsonNumber (cents : ℤ) : String :=
  let sign := if cents < 0 then "-" else ""
  let a := cents.natAbs
  let ip := toString (a / 100)
  let fr := a % 100
  if fr = 0 then sign ++ ip ++ ".0"
  else if fr % 10 = 0 then sign ++ ip ++ "." ++ toString (fr / 10)
  else sign ++ ip ++ "." ++ pad2 fr

/-- `json.dumps` of one record dict (keys keep insertion order). -/
def jsonRecord (r : Record) : String :=
  "\x7b\"Service\": \"" ++ r.Service ++ "\", \"Cost (USD)\": " ++
    jsonNumber r.costCents ++ "\x7d"

/-- `json.dumps({"data": records})`. -/
def jsonData (records : List Record) : String :=
  "\x7b\"data\": [" ++ String.intercalate ", " (records.map jsonRecord) ++ "]\x7d"

/-- `json.dumps({"error": msg})` for the plain messages this program
produces (none needs escaping). -/
def jsonError (msg : String) : String :=
  "\x7b\"error\": \"" ++ msg ++ "\"\x7d"

/-- `json.dumps({"message": "No data found"})`. -/
def jsonNoData : String := "\x7b\"message\": \"No data found\"\x7d"

/-- The value `lambda_handler` returns.  `headers` is `none` on the error
paths, which return no headers key; the body is always a string by
construction. -/
structure LambdaResponse where
  statusCode : Nat
  headers : Option (List (String × String))
  body : String
deriving DecidableEq, Repr

/-- The remote Cost Explorer, as an oracle: call number, start date, end
date and filter determine the outcome (`Except.error` carries `str(e)` of
the exception the client raised; `Except.ok none` models a falsy
response). -/
abbrev BillingOracle :=
  Nat → String → String → Option FilterExpr → Except String (Option CEResponse)

/-- Lines 93-96: resolve the two date strings.  `datetime.now()` is
called twice, once inside each default expression; `clock n` is the value
of the `n`-th read. -/
def resolveDates (params : Params) (clock : Nat → Date) : String × String :=
  ((getParam params "start_date").getD (formatDate (firstOfMonth (clock 0))),
   (getParam params "end_date").getD (formatDate (Date.pred (clock 1))))

/-- Lines 98-103: parse both dates and reject an inverted range. -/
def validateDates (s e : String) : Except String (Date × Date) :=
  match strptime s with
  | Except.error msg => Except.error msg
  | Except.ok ds =>
    match strptime e with
    | Except.error msg => Except.error msg
    | Except.ok de =>
      if dateLtB de ds then Except.error "start_date must be before end_date"
      else Except.ok (ds, de)

/-- Lines 105-109: the 400 response of the validation handler. -/
def respond400 (msg : String) : LambdaResponse :=
  ⟨400, none, jsonError ("Invalid date: " ++ msg)⟩

/-- Lines 111-139 (plus the outer catch of lines 141-145 for the errors
raised there): build the filter, perform the single remote call,
normalize, and format according to the `format` parameter. -/
def processQuery (params : Params) (s e : String) (billing : BillingOracle) :
    LambdaResponse :=
  let filters := build_filters params
  match get_aws_billing_data (billing 0 s e filters) with
  | Except.error msg => ⟨500, none, jsonError msg⟩
  | Except.ok resp =>
    match normalizeResponse resp with
    | Except.error msg => ⟨500, none, jsonError msg⟩
    | Except.ok records =>
      let fmt := strToLower ((getParam params "format").getD "json")
      if fmt == "table" then
        ⟨200, some [("Content-Type", "text/plain")],
          if records.isEmpty then "No data found" else format_table records⟩
      else
        ⟨200, some [("Content-Type", "application/json")],
          if records.isEmpty then jsonNoData else jsonData records⟩

/-- `lambda_handler` (lines 87-145).  `event` is `none` when the
`queryStringParameters` mapping is absent or null (`.get(...) or {}`
turns both into the empty mapping). -/
def lambda_handler (event : Option Params) (clock : Nat → Date)
    (billing : BillingOracle) : LambdaResponse :=
  let params := event.getD []
  let se := resolveDates params clock
  match validateDates se.1 se.2 with
  | Except.error msg => respond400 msg
  | Except.ok _ => processQuery params se.1 se.2 billing

/-- Decimal half-up rounding of `n / 10^k` to two places, in cents, as
the words of the spec describe the rounding (for comparison with the
code's `pyRound2CentsNat`). -/
def halfUpCentsNat (n k : Nat) : Nat :=
  if k ≤ 2 then n * 10 ^ (2 - k)
  else n / 10 ^ (k - 2) + (if 10 ^ (k - 2) ≤ 2 * (n % 10 ^ (k - 2)) then 1 else 0)

/-! ### Helper lemmas -/

theorem dateLeB_of_not_lt {a b : Date} (h : dateLtB b a = false) : dateLeB a b = true := by
  unfold dateLtB at h
  unfold dateLeB
  simp only [decide_eq_false_iff_not, decide_eq_true_eq] at *
  omega

theorem dateLeB_false_of_lt {a b : Date} (h : dateLtB b a = true) : dateLeB a b = false := by
  unfold dateLtB at h
  unfold dateLeB
  simp only [decide_eq_false_iff_not, decide_eq_true_eq] at *
  omega

theorem seed_le_foldl_max (l : List Nat) (a : Nat) : a ≤ l.foldl max a := by
  induction l generalizing a with
  | nil => exact Nat.le_refl a
  | cons y ys ih => exact le_trans (Nat.le_max_left a y) (ih (max a y))

theorem mem_le_foldl_max (l : List Nat) (a : Nat) : ∀ x ∈ l, x ≤ l.foldl max a := by
  induction l generalizing a with
  | nil => intro x hx; cases hx
  | cons y ys ih =>
    intro x hx
    rcases List.mem_cons.mp hx with hx | hx
    · subst hx
      exact le_trans (Nat.le_max_right a x) (seed_le_foldl_max ys (max a x))
    · exact ih (max a y) x hx

theorem foldl_max_attained (l : List Nat) (a : Nat) :
    l.foldl max a = a ∨ l.foldl max a ∈ l := by
  induction l generalizing a with
  | nil => exact Or.inl rfl
  | cons y ys ih =>
    rcases ih (max a y) with h | h
    · rcases max_choice a y with hm | hm
      · left
        simp only [List.foldl_cons]
        rw [h, hm]
      · right
        simp only [List.foldl_cons]
        rw [h, hm]
        exact List.mem_cons_self y ys
    · exact Or.inr (List.mem_cons_of_mem y h)

theorem width_max_spec (f : Record → Nat) (data : List Record) (h : data ≠ []) :
    (∀ r ∈ data, f r ≤ (data.map f).foldl max 0) ∧
    (∃ r ∈ data, f r = (data.map f).foldl max 0) := by
  obtain ⟨r0, rest, rfl⟩ : ∃ r0 rest, data = r0 :: rest := by
    cases data with
    | nil => exact absurd rfl h
    | cons a l => exact ⟨a, l, rfl⟩
  constructor
  · intro r hr
    exact mem_le_foldl_max _ 0 _ (List.mem_map_of_mem f hr)
  · rcases foldl_max_attained ((r0 :: rest).map f) 0 with hz | hm
    · refine ⟨r0, List.mem_cons_self r0 rest, ?_⟩
      have hle := mem_le_foldl_max ((r0 :: rest).map f) 0 (f r0)
        (List.mem_map_of_mem f (List.mem_cons_self r0 rest))
      omega
    · rcases List.mem_map.mp hm with ⟨r, hr, hlen⟩
      exact ⟨r, hr, hlen⟩

theorem mem_insertCostDesc {r x : Record} {l : List Record} :
    x ∈ insertCostDesc r l ↔ x = r ∨ x ∈ l := by
  induction l with
  | nil => simp [insertCostDesc]
  | cons y ys ih =>
    by_cases h : y.costCents ≤ r.costCents
    · simp only [insertCostDesc, if_pos h, List.mem_cons]
    · simp only [insertCostDesc, if_neg h, List.mem_cons, ih]
      tauto

theorem insertCostDesc_pairwise {r : Record} {l : List Record}
    (h : l.Pairwise (fun a b => b.costCents ≤ a.costCents)) :
    (insertCostDesc r l).Pairwise (fun a b => b.costCents ≤ a.costCents) := by
  induction l with
  | nil => simp [insertCostDesc]
  | cons y ys ih =>
    rcases List.pairwise_cons.mp h with ⟨hy, hys⟩
    by_cases hle : y.costCents ≤ r.costCents
    · rw [show insertCostDesc r (y :: ys) = r :: y :: ys from by
        simp only [insertCostDesc, if_pos hle]]
      refine List.pairwise_cons.mpr ⟨?_, h⟩
      intro z hz
      rcases List.mem_cons.mp hz with hz | hz
      · subst hz; exact hle
      · exact le_trans (hy z hz) hle
    · rw [show insertCostDesc r (y :: ys) = y :: insertCostDesc r ys from by
        simp only [insertCostDesc, if_neg hle]]
      refine List.pairwise_cons.mpr ⟨?_, ih hys⟩
      intro z hz
      rcases mem_insertCostDesc.mp hz with hz | hz
      · subst hz; exact le_of_lt (lt_of_not_le hle)
      · exact hy z hz

theorem sortByCostDesc_pairwise (l : List Record) :
    (sortByCostDesc l).Pairwise (fun a b => b.costCents ≤ a.costCents) := by
  induction l with
  | nil => simp [sortByCostDesc]
  | cons r rs ih => exact insertCostDesc_pairwise ih

theorem filter_insertCostDesc (r : Record) (l : List Record) (c : ℤ) :
    (insertCostDesc r l).filter (fun x => x.costCents == c) =
      if r.costCents = c then r :: l.filter (fun x => x.costCents == c)
      else l.filter (fun x => x.costCents == c) := by
  induction l with
  | nil =>
    by_cases hr : r.costCents = c <;>
      simp [insertCostDesc, List.filter_cons, beq_iff_eq, hr]
  | cons y ys ih =>
    by_cases hle : y.costCents ≤ r.costCents
    · rw [show insertCostDesc r (y :: ys) = r :: y :: ys from by
        simp only [insertCostDesc, if_pos hle]]
      by_cases hr : r.costCents = c <;>
        by_cases hy : y.costCents = c <;>
          simp [List.filter_cons, beq_iff_eq, hr, hy]
    · have hlt : r.costCents < y.costCents := lt_of_not_le hle
      rw [show insertCostDesc r (y :: ys) = y :: insertCostDesc r ys from by
        simp only [insertCostDesc, if_neg hle]]
      by_cases hr : r.costCents = c
      · have hy : ¬ y.costCents = c := by omega
        simp [List.filter_cons, beq_iff_eq, hy, ih, hr]
      · by_cases hy : y.costCents = c <;>
          simp [List.filter_cons, beq_iff_eq, hy, ih, hr]

theorem sortByCostDesc_filter (l : List Record) (c : ℤ) :
    (sortByCostDesc l).filter (fun x => x.costCents == c) =
      l.filter (fun x => x.costCents == c) := by
  induction l with
  | nil => rfl
  | cons r rs ih =>
    by_cases hr : r.costCents = c <;>
      simp [sortByCostDesc, filter_insertCostDesc, hr, List.filter_cons, ih]

theorem normalizeGroups_ok (f : Group → Record) (gs : List Group)
    (h : ∀ g ∈ gs, normalizeGroup g = Except.ok (f g)) :
    normalizeGroups gs = Except.ok (gs.map f) := by
  induction gs with
  | nil => rfl
  | cons g gs ih =>
    have hg := h g (List.mem_cons_self g gs)
    have hrest := ih (fun x hx => h x (List.mem_cons_of_mem g hx))
    simp [normalizeGroups, hg, hrest]

/-! ### Claims -/

/-- C2: `build_filters` returns no filter when zero recognized filter
parameters are present (the predicate list is empty exactly when
`services` and `regions` are absent and no key has the `tag_` prefix),
the single predicate unwrapped when exactly one is present, and an `And`
node wrapping all predicates when two or more are present, in the order
services, regions, then tags in key order, values comma-split (that
order and splitting is `specPredicates`). -/
theorem build_filters_combination (params : Params) :
    (build_filters params =
      match specPredicates params with
      | [] => none
      | [p] => some p
      | ps => some (FilterExpr.and ps)) ∧
    (specPredicates params = [] ↔
      getParam params "services" = none ∧ getParam params "regions" = none ∧
      ∀ p ∈ params, strStartsWith p.1 "tag_" = false) := by
  constructor
  · unfold build_filters specPredicates
    cases hs : getParam params "services" <;>
      cases hr : getParam params "regions" <;>
        cases htf : tagFilters params <;>
          simp [htf]
  · unfold specPredicates tagFilters
    cases hs : getParam params "services" <;>
      cases hr : getParam params "regions" <;>
        simp [List.filterMap_eq_nil_iff, ite_eq_right_iff]

/-- C3, counterexample: the code's column widths are maxima over the
values only; at the single record `EC2` with cost 1.00 the claimed widths
(max with the header lengths 7 and 10) differ from the computed ones. -/
theorem table_width_counterexample :
    service_width [⟨"EC2", 100⟩] = 3 ∧
    cost_width [⟨"EC2", 100⟩] = 4 ∧
    service_width [⟨"EC2", 100⟩] ≠ max "Service".length (service_width [⟨"EC2", 100⟩]) ∧
    cost_width [⟨"EC2", 100⟩] ≠ max "Cost (USD)".length (cost_width [⟨"EC2", 100⟩]) := by
  decide

/-- C3, amended: for every non-empty record list, each column width
equals the maximum string length across the values in that column only —
the header labels are not included in the maxima (so header cells may
overflow their columns, as the counterexample shows). -/
theorem table_width_amended (data : List Record) (h : data ≠ []) :
    (∀ r ∈ data, r.Service.length ≤ service_width data) ∧
    (∃ r ∈ data, r.Service.length = service_width data) ∧
    (∀ r ∈ data, (format2f r.costCents).length ≤ cost_width data) ∧
    (∃ r ∈ data, (format2f r.costCents).length = cost_width data) := by
  have h1 := width_max_spec (fun r => r.Service.length) data h
  have h2 := width_max_spec (fun r => (format2f r.costCents).length) data h
  exact ⟨h1.1, h1.2, h2.1, h2.2⟩

/-- Witness for the amended C3, at the two-record list `EC2`, `S3`. -/
theorem table_width_amended_witness :
    (∀ r ∈ [Record.mk "EC2" 1235, Record.mk "S3" 120],
      r.Service.length ≤ service_width [Record.mk "EC2" 1235, Record.mk "S3" 120]) ∧
    (∃ r ∈ [Record.mk "EC2" 1235, Record.mk "S3" 120],
      r.Service.length = service_width [Record.mk "EC2" 1235, Record.mk "S3" 120]) ∧
    (∀ r ∈ [Record.mk "EC2" 1235, Record.mk "S3" 120],
      (format2f r.costCents).length ≤ cost_width [Record.mk "EC2" 1235, Record.mk "S3" 120]) ∧
    (∃ r ∈ [Record.mk "EC2" 1235, Record.mk "S3" 120],
      (format2f r.costCents).length = cost_width [Record.mk "EC2" 1235, Record.mk "S3" 120]) :=
  table_width_amended [Record.mk "EC2" 1235, Record.mk "S3" 120] (by decide)

/-- C4, counterexample: the rounding is not decimal half-up.  At amount
`"2.675"` the code stores 2.67 (the nearest binary64 to 2.675 is below
it), while half-up rounding of 2.675 gives 2.68. -/
theorem rounding_halfup_counterexample :
    normalizeGroup ⟨["AmazonCloudWatch"], "2.675"⟩ =
      Except.ok ⟨"AmazonCloudWatch", 267⟩ ∧
    halfUpCentsNat 2675 3 = 268 ∧ (267 : ℤ) ≠ 268 :=
  ⟨rfl, by decide, by decide⟩

/-- C4, amended: normalization rounds cost amounts to 2 decimal places by
Python float rounding (round-half-even on the exact binary64 value, not
decimal half-up); on the claimed instance the two coincide: groups
`[("EC2","12.345"), ("S3","1.2")]` normalize to 12.35 and 1.20 dollars,
and the formatted table lists EC2 first. -/
theorem rounding_roundtrip_amended :
    normalizeResponse (some ⟨[⟨[⟨["EC2"], "12.345"⟩, ⟨["S3"], "1.2"⟩]⟩]⟩) =
      Except.ok [⟨"EC2", 1235⟩, ⟨"S3", 120⟩] ∧
    halfUpCentsNat 12345 3 = 1235 ∧ halfUpCentsNat 12 1 = 120 ∧
    format_table [⟨"EC2", 1235⟩, ⟨"S3", 120⟩] =
      "| Service | Cost (USD) |\n|-----|-------|\n| EC2 | 12.35 |\n| S3  |  1.20 |" :=
  ⟨rfl, by decide, by decide, by decide⟩

/-- C8: for every non-empty record list, the data rows of the formatted
table are the rendered records in `sortByCostDesc` order; that order is
sorted by cost descending, and records of equal cost keep their relative
input order (the sublist at each cost value is exactly the input filter
at that value). -/
theorem table_sorting_stable (data : List Record) (h : data ≠ []) :
    format_table data = String.intercalate "\n"
      (("| " ++ padRight "Service" (service_width data) ++ " | " ++
          padLeft "Cost (USD)" (cost_width data) ++ " |") ::
        ("|" ++ dashes (service_width data + 2) ++ "|" ++
          dashes (cost_width data + 2) ++ "|") ::
        (sortByCostDesc data).map (renderRow (service_width data) (cost_width data))) ∧
    (sortByCostDesc data).Pairwise (fun a b => b.costCents ≤ a.costCents) ∧
    ∀ c : ℤ, (sortByCostDesc data).filter (fun x => x.costCents == c) =
      data.filter (fun x => x.costCents == c) := by
  refine ⟨?_, sortByCostDesc_pairwise data, fun c => sortByCostDesc_filter data c⟩
  have hne : data.isEmpty = false := by
    cases data with
    | nil => exact absurd rfl h
    | cons a l => rfl
  simp [format_table, hne]

/-- Witness for C8, at a three-record list with a cost tie between the
first and last records. -/
theorem table_sorting_stable_witness :
    format_table [Record.mk "A" 100, Record.mk "B" 200, Record.mk "C" 100] =
      String.intercalate "\n"
      (("| " ++ padRight "Service"
            (service_width [Record.mk "A" 100, Record.mk "B" 200, Record.mk "C" 100]) ++ " | " ++
          padLeft "Cost (USD)"
            (cost_width [Record.mk "A" 100, Record.mk "B" 200, Record.mk "C" 100]) ++ " |") ::
        ("|" ++ dashes
            (service_width [Record.mk "A" 100, Record.mk "B" 200, Record.mk "C" 100] + 2) ++ "|" ++
          dashes
            (cost_width [Record.mk "A" 100, Record.mk "B" 200, Record.mk "C" 100] + 2) ++ "|") ::
        (sortByCostDesc [Record.mk "A" 100, Record.mk "B" 200, Record.mk "C" 100]).map
          (renderRow (service_width [Record.mk "A" 100, Record.mk "B" 200, Record.mk "C" 100])
            (cost_width [Record.mk "A" 100, Record.mk "B" 200, Record.mk "C" 100]))) ∧
    (sortByCostDesc [Record.mk "A" 100, Record.mk "B" 200, Record.mk "C" 100]).Pairwise
      (fun a b => b.costCents ≤ a.costCents) ∧
    ∀ c : ℤ,
      (sortByCostDesc [Record.mk "A" 100, Record.mk "B" 200, Record.mk "C" 100]).filter
          (fun x => x.costCents == c) =
        [Record.mk "A" 100, Record.mk "B" 200, Record.mk "C" 100].filter
          (fun x => x.costCents == c) :=
  table_sorting_stable [Record.mk "A" 100, Record.mk "B" 200, Record.mk "C" 100] (by decide)

/-- C7: normalization is the flat ordered sequence over the buckets in
order and, within each bucket, its groups in order, taking each group's
first key as the service and its amount parsed as a decimal and rounded
to two places; an absent (falsy) or empty response yields the empty
sequence, and multiple buckets interleave into one flat list. -/
theorem normalization_flattening (resp : CEResponse)
    (h : ∀ rbt ∈ resp.ResultsByTime, ∀ g ∈ rbt.Groups,
      g.Keys ≠ [] ∧ parseDecimal g.Amount ≠ none) :
    normalizeResponse (some resp) = Except.ok
      (((resp.ResultsByTime.map (fun rbt => rbt.Groups)).flatten).map (fun g =>
        { Service := g.Keys.headD ""
          costCents := match parseDecimal g.Amount with
            | some d => pyRound2Cents d.1 d.2.1 d.2.2
            | none => 0 })) ∧
    normalizeResponse none = Except.ok [] ∧
    normalizeResponse (some ⟨[]⟩) = Except.ok [] := by
  refine ⟨?_, rfl, rfl⟩
  unfold normalizeResponse
  apply normalizeGroups_ok
  intro g hg
  rcases List.mem_flatten.mp hg with ⟨gs, hgs, hgmem⟩
  rcases List.mem_map.mp hgs with ⟨rbt, hrbt, rfl⟩
  rcases h rbt hrbt g hgmem with ⟨hkeys, hparse⟩
  cases hk : g.Keys with
  | nil => exact absurd hk hkeys
  | cons k ks =>
    cases hp : parseDecimal g.Amount with
    | none => exact absurd hp hparse
    | some d => simp [normalizeGroup, hk, hp]

/-- Witness for C7, at a response with two time-period buckets whose
groups interleave into one flat list. -/
theorem normalization_flattening_witness :
    normalizeResponse (some ⟨[⟨[⟨["EC2"], "12.345"⟩, ⟨["S3"], "1.2"⟩]⟩,
        ⟨[⟨["EC2"], "2.675"⟩]⟩]⟩) = Except.ok
      ((([ResultByTime.mk [⟨["EC2"], "12.345"⟩, ⟨["S3"], "1.2"⟩],
          ResultByTime.mk [⟨["EC2"], "2.675"⟩]].map (fun rbt => rbt.Groups)).flatten).map
        (fun g =>
          { Service := g.Keys.headD ""
            costCents := match parseDecimal g.Amount with
              | some d => pyRound2Cents d.1 d.2.1 d.2.2
              | none => 0 })) ∧
    normalizeResponse none = Except.ok [] ∧
    normalizeResponse (some ⟨[]⟩) = Except.ok [] :=
  normalization_flattening
    ⟨[⟨[⟨["EC2"], "12.345"⟩, ⟨["S3"], "1.2"⟩]⟩, ⟨[⟨["EC2"], "2.675"⟩]⟩]⟩
    (by decide)

theorem processQuery_status (params : Params) (s e : String) (billing : BillingOracle) :
    (processQuery params s e billing).statusCode = 200 ∨
    (processQuery params s e billing).statusCode = 500 := by
  cases h : get_aws_billing_data (billing 0 s e (build_filters params)) with
  | error msg =>
    right
    simp [processQuery, h]
  | ok resp =>
    cases h2 : normalizeResponse resp with
    | error m =>
      right
      simp [processQuery, h, h2]
    | ok records =>
      left
      cases hf : (strToLower ((getParam params "format").getD "json") == "table") <;>
        simp [processQuery, h, h2, hf]

/-- C10: for every event (present, absent or null query parameters),
every clock and every behaviour of the remote query, the handler returns
a response whose statusCode is 200, 400 or 500 (its body is a string by
the type of `LambdaResponse`): every exception is converted, none
propagates. -/
theorem handler_total_status (event : Option Params) (clock : Nat → Date)
    (billing : BillingOracle) :
    (lambda_handler event clock billing).statusCode = 200 ∨
    (lambda_handler event clock billing).statusCode = 400 ∨
    (lambda_handler event clock billing).statusCode = 500 := by
  cases hv : validateDates (resolveDates (event.getD []) clock).1
      (resolveDates (event.getD []) clock).2 with
  | error msg =>
    right; left
    simp [lambda_handler, hv, respond400]
  | ok p =>
    rcases processQuery_status (event.getD []) (resolveDates (event.getD []) clock).1
        (resolveDates (event.getD []) clock).2 billing with h | h
    · left
      simpa [lambda_handler, hv] using h
    · right; right
      simpa [lambda_handler, hv] using h

/-- C1: for every request whose resolved `start_date`/`end_date` strings
(explicit parameters, or the defaults; an absent or null parameter
mapping behaves as the empty one) both parse as `%Y-%m-%d` calendar
dates with start ≤ end, the handler proceeds past validation into the
query pipeline; otherwise (either date malformed, or start > end) it
returns statusCode 400 with body `{"error": "Invalid date: <message>"}`,
and the response is the same for every billing oracle — the remote query
is never invoked. -/
theorem validation_gate (params : Params) (s e : String) (clock : Nat → Date)
    (hres : resolveDates params clock = (s, e)) :
    ((∃ ds de, strptime s = Except.ok ds ∧ strptime e = Except.ok de ∧
        dateLeB ds de = true) →
      ∀ billing, lambda_handler (some params) clock billing =
        processQuery params s e billing) ∧
    (¬ (∃ ds de, strptime s = Except.ok ds ∧ strptime e = Except.ok de ∧
        dateLeB ds de = true) →
      ∃ msg, ∀ billing, lambda_handler (some params) clock billing =
        ⟨400, none, jsonError ("Invalid date: " ++ msg)⟩) := by
  cases hps : strptime s with
  | error msg =>
    constructor
    · rintro ⟨ds, de, hds, -, -⟩
      exact absurd hds (by simp)
    · intro _
      refine ⟨msg, fun billing => ?_⟩
      simp [lambda_handler, hres, validateDates, hps, respond400]
  | ok ds =>
    cases hpe : strptime e with
    | error msg =>
      constructor
      · rintro ⟨ds2, de2, -, hde, -⟩
        exact absurd hde (by simp)
      · intro _
        refine ⟨msg, fun billing => ?_⟩
        simp [lambda_handler, hres, validateDates, hps, hpe, respond400]
    | ok de =>
      cases hlt : dateLtB de ds with
      | false =>
        constructor
        · intro _ billing
          simp [lambda_handler, hres, validateDates, hps, hpe, hlt]
        · intro hn
          exact absurd ⟨ds, de, rfl, rfl, dateLeB_of_not_lt hlt⟩ hn
      | true =>
        constructor
        · rintro ⟨ds2, de2, hds, hde, hle⟩
          injection hds with h1
          injection hde with h2
          subst h1
          subst h2
          rw [dateLeB_false_of_lt hlt] at hle
          cases hle
        · intro _
          refine ⟨"start_date must be before end_date", fun billing => ?_⟩
          simp [lambda_handler, hres, validateDates, hps, hpe, hlt, respond400]

/-- Witness for C1, at an accepting request (both hypotheses discharged
at explicit parameters). -/
theorem validation_gate_witness :
    ((∃ ds de, strptime "2025-03-01" = Except.ok ds ∧
        strptime "2025-03-31" = Except.ok de ∧ dateLeB ds de = true) →
      ∀ billing, lambda_handler
          (some [("start_date", "2025-03-01"), ("end_date", "2025-03-31")])
          (fun _ => ⟨2025, 4, 1⟩) billing =
        processQuery [("start_date", "2025-03-01"), ("end_date", "2025-03-31")]
          "2025-03-01" "2025-03-31" billing) ∧
    (¬ (∃ ds de, strptime "2025-03-01" = Except.ok ds ∧
        strptime "2025-03-31" = Except.ok de ∧ dateLeB ds de = true) →
      ∃ msg, ∀ billing, lambda_handler
          (some [("start_date", "2025-03-01"), ("end_date", "2025-03-31")])
          (fun _ => ⟨2025, 4, 1⟩) billing =
        ⟨400, none, jsonError ("Invalid date: " ++ msg)⟩) :=
  validation_gate [("start_date", "2025-03-01"), ("end_date", "2025-03-31")]
    "2025-03-01" "2025-03-31" (fun _ => ⟨2025, 4, 1⟩) rfl

/-- C5: a remote-query error is caught inside `get_aws_billing_data` and
re-raised as a single generic error carrying the original message; that
error reaches the top-level catch-all, which returns statusCode 500 with
body `{"error": "<message>"}`; and the outcome depends only on the first
(single) billing call — there is no retry. -/
theorem query_error_propagation (params : Params) (s e msg : String)
    (clock : Nat → Date) (billing : BillingOracle) (p : Date × Date)
    (hres : resolveDates params clock = (s, e))
    (hok : validateDates s e = Except.ok p)
    (herr : billing 0 s e (build_filters params) = Except.error msg) :
    get_aws_billing_data (billing 0 s e (build_filters params)) =
      Except.error ("Cost Explorer Error: " ++ msg) ∧
    lambda_handler (some params) clock billing =
      ⟨500, none, jsonError ("Cost Explorer Error: " ++ msg)⟩ ∧
    (∀ billing2 : BillingOracle,
      (∀ s2 e2 f, billing2 0 s2 e2 f = billing 0 s2 e2 f) →
      lambda_handler (some params) clock billing2 =
        lambda_handler (some params) clock billing) := by
  refine ⟨by simp [get_aws_billing_data, herr], ?_, ?_⟩
  · simp [lambda_handler, hres, hok, processQuery, get_aws_billing_data, herr]
  · intro b2 hb2
    simp [lambda_handler, hres, hok, processQuery, hb2]

/-- Witness for C5, at a request whose billing call raises `boom`. -/
theorem query_error_propagation_witness :
    get_aws_billing_data
        ((fun _ _ _ _ => Except.error "boom" : BillingOracle) 0 "2025-03-01" "2025-03-31"
          (build_filters [("start_date", "2025-03-01"), ("end_date", "2025-03-31")])) =
      Except.error ("Cost Explorer Error: " ++ "boom") ∧
    lambda_handler (some [("start_date", "2025-03-01"), ("end_date", "2025-03-31")])
        (fun _ => ⟨2025, 4, 1⟩) (fun _ _ _ _ => Except.error "boom") =
      ⟨500, none, jsonError ("Cost Explorer Error: " ++ "boom")⟩ ∧
    (∀ billing2 : BillingOracle,
      (∀ s2 e2 f, billing2 0 s2 e2 f =
        (fun _ _ _ _ => Except.error "boom" : BillingOracle) 0 s2 e2 f) →
      lambda_handler (some [("start_date", "2025-03-01"), ("end_date", "2025-03-31")])
          (fun _ => ⟨2025, 4, 1⟩) billing2 =
        lambda_handler (some [("start_date", "2025-03-01"), ("end_date", "2025-03-31")])
          (fun _ => ⟨2025, 4, 1⟩) (fun _ _ _ _ => Except.error "boom")) :=
  query_error_propagation [("start_date", "2025-03-01"), ("end_date", "2025-03-31")]
    "2025-03-01" "2025-03-31" "boom" (fun _ => ⟨2025, 4, 1⟩)
    (fun _ _ _ _ => Except.error "boom") (⟨2025, 3, 1⟩, ⟨2025, 3, 31⟩) rfl rfl rfl

/-- C6: when the normalized record sequence is empty the handler returns
statusCode 200 with body `{"message": "No data found"}` and content-type
application/json in JSON mode, and the literal text `No data found` with
content-type text/plain in table mode; the substitution is made by the
caller — `format_table` on an empty list returns a different string, so
it is not what produced the body. -/
theorem empty_records_response (params : Params) (s e : String)
    (clock : Nat → Date) (billing : BillingOracle) (p : Date × Date)
    (resp : Option CEResponse)
    (hres : resolveDates params clock = (s, e))
    (hok : validateDates s e = Except.ok p)
    (hq : billing 0 s e (build_filters params) = Except.ok resp)
    (hnorm : normalizeResponse resp = Except.ok []) :
    (strToLower ((getParam params "format").getD "json") = "table" →
      lambda_handler (some params) clock billing =
        ⟨200, some [("Content-Type", "text/plain")], "No data found"⟩) ∧
    (strToLower ((getParam params "format").getD "json") ≠ "table" →
      lambda_handler (some params) clock billing =
        ⟨200, some [("Content-Type", "application/json")], jsonNoData⟩) ∧
    jsonNoData = "\x7b\"message\": \"No data found\"\x7d" ∧
    format_table [] = "No billing data available" ∧
    ("No billing data available" : String) ≠ "No data found" := by
  refine ⟨?_, ?_, rfl, rfl, by decide⟩
  · intro hf
    have hb : (strToLower ((getParam params "format").getD "json") == "table") = true := by
      simp [hf]
    simp [lambda_handler, hres, hok, processQuery, get_aws_billing_data, hq, hnorm, hb]
  · intro hf
    have hb : (strToLower ((getParam params "format").getD "json") == "table") = false := by
      simpa using hf
    simp [lambda_handler, hres, hok, processQuery, get_aws_billing_data, hq, hnorm, hb]

/-- Witness for C6, at a request in table mode whose billing call returns
a falsy response. -/
theorem empty_records_response_witness :
    (strToLower ((getParam [("start_date", "2025-03-01"), ("end_date", "2025-03-31"),
          ("format", "table")] "format").getD "json") = "table" →
      lambda_handler (some [("start_date", "2025-03-01"), ("end_date", "2025-03-31"),
          ("format", "table")]) (fun _ => ⟨2025, 4, 1⟩) (fun _ _ _ _ => Except.ok none) =
        ⟨200, some [("Content-Type", "text/plain")], "No data found"⟩) ∧
    (strToLower ((getParam [("start_date", "2025-03-01"), ("end_date", "2025-03-31"),
          ("format", "table")] "format").getD "json") ≠ "table" →
      lambda_handler (some [("start_date", "2025-03-01"), ("end_date", "2025-03-31"),
          ("format", "table")]) (fun _ => ⟨2025, 4, 1⟩) (fun _ _ _ _ => Except.ok none) =
        ⟨200, some [("Content-Type", "application/json")], jsonNoData⟩) ∧
    jsonNoData = "\x7b\"message\": \"No data found\"\x7d" ∧
    format_table [] = "No billing data available" ∧
    ("No billing data available" : String) ≠ "No data found" :=
  empty_records_response
    [("start_date", "2025-03-01"), ("end_date", "2025-03-31"), ("format", "table")]
    "2025-03-01" "2025-03-31" (fun _ => ⟨2025, 4, 1⟩) (fun _ _ _ _ => Except.ok none)
    (⟨2025, 3, 1⟩, ⟨2025, 3, 31⟩) none rfl rfl rfl rfl

/-- C9, counterexample: `datetime.now()` is read twice, not once.  Two
clocks agreeing on the first read but differing on the second produce
different responses (the end-date default follows the second read), so
the defaults are not a function of a single per-request `now`. -/
theorem now_read_once_counterexample :
    ((fun _ => (⟨2025, 3, 15⟩ : Date)) : Nat → Date) 0 =
      ((fun n => if n = 0 then (⟨2025, 3, 15⟩ : Date) else ⟨2025, 3, 16⟩) : Nat → Date) 0 ∧
    lambda_handler (some []) (fun _ => ⟨2025, 3, 15⟩)
        (fun _ s e _ => Except.error (s ++ e)) ≠
      lambda_handler (some []) (fun n => if n = 0 then ⟨2025, 3, 15⟩ else ⟨2025, 3, 16⟩)
        (fun _ s e _ => Except.error (s ++ e)) :=
  ⟨rfl, by decide⟩

/-- C9, amended: when both dates are omitted the defaults are start =
first day of the current month and end = yesterday, both `YYYY-MM-DD` —
but `now` is read twice per request, once inside each default expression
(reads 0 and 1 of the clock), so the two defaults may come from
different instants.  The handler behaves exactly as if those two
formatted defaults had been passed explicitly. -/
theorem defaults_amended (params : Params) (clock : Nat → Date)
    (billing : BillingOracle)
    (hs : getParam params "start_date" = none)
    (he : getParam params "end_date" = none) :
    resolveDates params clock =
      (formatDate (firstOfMonth (clock 0)), formatDate (Date.pred (clock 1))) ∧
    lambda_handler (some params) clock billing =
      lambda_handler (some (params ++
        [("start_date", formatDate (firstOfMonth (clock 0))),
         ("end_date", formatDate (Date.pred (clock 1)))])) clock billing := by
  have hfs : params.find? (fun p => p.1 == "start_date") = none := by
    cases hf : params.find? (fun p => p.1 == "start_date") with
    | none => rfl
    | some v =>
      unfold getParam at hs
      rw [hf] at hs
      simp at hs
  have hfe : params.find? (fun p => p.1 == "end_date") = none := by
    cases hf : params.find? (fun p => p.1 == "end_date") with
    | none => rfl
    | some v =>
      unfold getParam at he
      rw [hf] at he
      simp at he
  have h1 : resolveDates params clock =
      (formatDate (firstOfMonth (clock 0)), formatDate (Date.pred (clock 1))) := by
    simp [resolveDates, hs, he]
  refine ⟨h1, ?_⟩
  have h2 : resolveDates (params ++
      [("start_date", formatDate (firstOfMonth (clock 0))),
       ("end_date", formatDate (Date.pred (clock 1)))]) clock =
      (formatDate (firstOfMonth (clock 0)), formatDate (Date.pred (clock 1))) := by
    simp [resolveDates, getParam, List.find?_append, hfs, hfe, List.find?]
  have hsv : getParam (params ++
      [("start_date", formatDate (firstOfMonth (clock 0))),
       ("end_date", formatDate (Date.pred (clock 1)))]) "services" =
      getParam params "services" := by
    simp [getParam, List.find?_append, List.find?]
  have hrg : getParam (params ++
      [("start_date", formatDate (firstOfMonth (clock 0))),
       ("end_date", formatDate (Date.pred (clock 1)))]) "regions" =
      getParam params "regions" := by
    simp [getParam, List.find?_append, List.find?]
  have hfm : getParam (params ++
      [("start_date", formatDate (firstOfMonth (clock 0))),
       ("end_date", formatDate (Date.pred (clock 1)))]) "format" =
      getParam params "format" := by
    simp [getParam, List.find?_append, List.find?]
  have hts : strStartsWith "start_date" "tag_" = false := by decide
  have hte : strStartsWith "end_date" "tag_" = false := by decide
  have htg : tagFilters (params ++
      [("start_date", formatDate (firstOfMonth (clock 0))),
       ("end_date", formatDate (Date.pred (clock 1)))]) = tagFilters params := by
    simp [tagFilters, List.filterMap_append, hts, hte]
  have hbf : build_filters (params ++
      [("start_date", formatDate (firstOfMonth (clock 0))),
       ("end_date", formatDate (Date.pred (clock 1)))]) = build_filters params := by
    simp only [build_filters, hsv, hrg, htg]
  simp only [lambda_handler, Option.getD_some, h1, h2]
  cases validateDates (formatDate (firstOfMonth (clock 0)))
      (formatDate (Date.pred (clock 1))) with
  | error msg => rfl
  | ok q => simp only [processQuery, hbf, hfm]

/-- Witness for the amended C9, at the empty parameter mapping, a clock
whose two reads straddle midnight of 2025-04-01, and an erroring billing
oracle. -/
theorem defaults_amended_witness :
    resolveDates [] (fun n => if n = 0 then ⟨2025, 3, 31⟩ else ⟨2025, 4, 1⟩) =
      (formatDate (firstOfMonth
        ((fun n => if n = 0 then (⟨2025, 3, 31⟩ : Date) else ⟨2025, 4, 1⟩) 0)),
       formatDate (Date.pred
        ((fun n => if n = 0 then (⟨2025, 3, 31⟩ : Date) else ⟨2025, 4, 1⟩) 1))) ∧
    lambda_handler (some []) (fun n => if n = 0 then ⟨2025, 3, 31⟩ else ⟨2025, 4, 1⟩)
        (fun _ s e _ => Except.error (s ++ e)) =
      lambda_handler (some ([] ++
        [("start_date", formatDate (firstOfMonth
          ((fun n => if n = 0 then (⟨2025, 3, 31⟩ : Date) else ⟨2025, 4, 1⟩) 0))),
         ("end_date", formatDate (Date.pred
          ((fun n => if n = 0 then (⟨2025, 3, 31⟩ : Date) else ⟨2025, 4, 1⟩) 1)))]))
        (fun n => if n = 0 then ⟨2025, 3, 31⟩ else ⟨2025, 4, 1⟩)
        (fun _ s e _ => Except.error (s ++ e)) :=
  defaults_amended [] (fun n => if n = 0 then ⟨2025, 3, 31⟩ else ⟨2025, 4, 1⟩)
    (fun _ s e _ => Except.error (s ++ e)) rfl rfl

end AwsDemo
